import Mathlib

/-!
Shallow embedding of the `archiiv` record store (Go sources: `id` package and
`fs/fs.go`) and verification of its specification claims.

Modelling conventions:
* Go byte slices / arrays are `List Nat` with every element `< 256`.
* Go strings are `List Char` (all text involved is ASCII).
* `math/big` integers are `Nat`.
* Go's two-result map read `r, ok := m[k]` is `List.lookup` on an
  association list.
* Fallible Go functions return their error channel explicitly; a nil-pointer
  dereference (a Go runtime panic) is the distinguished result `GoResult.panic`.
* Mutex lock/unlock calls have no effect on sequential data behaviour and are
  not modelled.
* Randomness (`id.New`) is modelled by passing the freshly generated
  identifier as an explicit argument.
-/

namespace Archiiv

/-! ## The `id` package (`src/unnamed/part_004`) -/

/-- `var b58table = "123456789ABCDEFGHJKLMNPQRSTUVWXYZabcdefghijkmnopqrstuvwxyz"` -/
def b58table : List Char :=
  ['1', '2', '3', '4', '5', '6', '7', '8', '9',
   'A', 'B', 'C', 'D', 'E', 'F', 'G', 'H', 'J', 'K', 'L', 'M', 'N',
   'P', 'Q', 'R', 'S', 'T', 'U', 'V', 'W', 'X', 'Y', 'Z',
   'a', 'b', 'c', 'd', 'e', 'f', 'g', 'h', 'i', 'j', 'k', 'm',
   'n', 'o', 'p', 'q', 'r', 's', 't', 'u', 'v', 'w', 'x', 'y', 'z']

/-- `const strlen = 22` -/
def strlen : Nat := 22

/-- `type ID struct { value [16]byte }`: 16 bytes, big-endian when read as an
integer.  Well-formedness (`length = 16`, bytes `< 256`) is stated as a
hypothesis where needed. -/
structure ID where
  value : List Nat
deriving DecidableEq, Repr

/-- Big-endian bytes to integer, as `new(big.Int).SetBytes(b)` computes it. -/
def beNat (l : List Nat) : Nat :=
  l.foldl (fun acc b => acc * 256 + b) 0

/-- One division loop `for n.Cmp(zero) != 0 { n.DivMod(n, base, rem); … }`,
collecting remainders least-significant first.  The loop runs at most `n`
iterations, so `n` itself serves as structural fuel. -/
def digitsRevAux (b : Nat) : Nat → Nat → List Nat
  | 0, _ => []
  | fuel + 1, n => if n = 0 then [] else n % b :: digitsRevAux b fuel (n / b)

/-- Base-58 digits of `n`, least significant first (the loop in `ID.String`). -/
def b58digitsRev (n : Nat) : List Nat := digitsRevAux 58 n n

/-- `big.Int.Bytes()`: minimal big-endian byte representation. -/
def bigIntBytes (n : Nat) : List Nat := (digitsRevAux 256 n n).reverse

/-- Go's `copy(dst, src)`: overwrite the first `min |dst| |src|` entries of
`dst` with the corresponding entries of `src`. -/
def goCopy (dst src : List Nat) : List Nat :=
  src.take (min dst.length src.length) ++ dst.drop (min dst.length src.length)

/-- `func (id ID) String() string`: base-58 digits of the 16-byte big-endian
value, each mapped through `b58table`, padded with `table[0] = '1'` up to 22
characters, then reversed (so the result reads most-significant first). -/
def ID.string (id : ID) : List Char :=
  let n := beNat id.value
  let e := (b58digitsRev n).map fun d => b58table.getD d '1'
  let e := e ++ List.replicate (strlen - e.length) (b58table.getD 0 '1')
  e.reverse

/-- The character-consuming loop of `Parse`: `strings.IndexByte` each
character, accumulating `result = result*58 + idx`, failing on a character
outside the table. -/
def parseLoop : List Char → Nat → Except String Nat
  | [], acc => .ok acc
  | c :: rest, acc =>
    match b58table.indexOf? c with
    | none => .error "invalid byte inside b58 string"
    | some idx => parseLoop rest (acc * 58 + idx)

/-- `func Parse(s string) (id ID, err error)`: length must be 22, every
character must be in the table; the decoded integer's minimal big-endian bytes
are left-padded with zeros when shorter than 16 and then `copy`ed into the
zeroed 16-byte array (which drops trailing bytes when longer than 16). -/
def parse (s : List Char) : Except String ID :=
  if s.length ≠ strlen then .error "invalid b58 string length"
  else
    match parseLoop s 0 with
    | .error e => .error e
    | .ok result =>
      let bytes := bigIntBytes result
      let bytes := if bytes.length < 16 then List.replicate (16 - bytes.length) 0 ++ bytes else bytes
      .ok ⟨goCopy (List.replicate 16 0) bytes⟩

/-- The all-zero identifier, Go's zero value `id.ID{}`. -/
def zeroID : ID := ⟨List.replicate 16 0⟩

/-! ## Codec lemmas -/

theorem digitsRevAux_eq_digits {b : Nat} (hb : 1 < b) :
    ∀ fuel n, n ≤ fuel → digitsRevAux b fuel n = Nat.digits b n := by
  intro fuel
  induction fuel with
  | zero =>
    intro n hn
    interval_cases n
    simp [digitsRevAux]
  | succ fuel ih =>
    intro n hn
    by_cases h0 : n = 0
    · simp [digitsRevAux, h0]
    · rw [digitsRevAux, if_neg h0, Nat.digits_def' hb (Nat.pos_of_ne_zero h0),
        ih (n / b)]
      have : n / b < n := Nat.div_lt_self (Nat.pos_of_ne_zero h0) hb
      omega

theorem b58digitsRev_eq (n : Nat) : b58digitsRev n = Nat.digits 58 n :=
  digitsRevAux_eq_digits (by norm_num) n n le_rfl

theorem bigIntBytes_eq (n : Nat) : bigIntBytes n = (Nat.digits 256 n).reverse := by
  rw [bigIntBytes, digitsRevAux_eq_digits (by norm_num) n n le_rfl]

theorem digits_length_le {b n k : Nat} (hb : 1 < b) (h : n < b ^ k) :
    (Nat.digits b n).length ≤ k := by
  by_cases h0 : n = 0
  · simp [h0]
  · rw [Nat.digits_len b n hb h0]
    have := Nat.log_lt_of_lt_pow h0 h
    omega

theorem foldl_mul_add (b : Nat) :
    ∀ (l : List Nat) (a : Nat),
      l.foldl (fun acc d => acc * b + d) a = a * b ^ l.length + Nat.ofDigits b l.reverse := by
  intro l
  induction l with
  | nil => intro a; simp [Nat.ofDigits]
  | cons d l ih =>
    intro a
    rw [List.foldl_cons, ih (a * b + d), List.reverse_cons, Nat.ofDigits_append]
    simp [Nat.ofDigits, pow_succ]
    ring

theorem foldl_mul_add_digits_reverse {b n : Nat} :
    (Nat.digits b n).reverse.foldl (fun acc d => acc * b + d) 0 = n := by
  rw [foldl_mul_add, List.reverse_reverse, Nat.ofDigits_digits]
  simp

theorem beNat_eq_ofDigits (l : List Nat) : beNat l = Nat.ofDigits 256 l.reverse := by
  have := foldl_mul_add 256 l 0
  simpa [beNat] using this

theorem beNat_lt (l : List Nat) (hl : ∀ x ∈ l, x < 256) : beNat l < 256 ^ l.length := by
  rw [beNat_eq_ofDigits]
  have : Nat.ofDigits 256 l.reverse < 256 ^ l.reverse.length :=
    Nat.ofDigits_lt_base_pow_length (by norm_num) (by simpa using hl)
  simpa using this

theorem beNat_append_singleton (l : List Nat) (a : Nat) :
    beNat (l ++ [a]) = beNat l * 256 + a := by
  simp [beNat, List.foldl_append]

theorem beNat_replicate_zero_append (k : Nat) (l : List Nat) :
    beNat (List.replicate k 0 ++ l) = beNat l := by
  induction k with
  | zero => simp
  | succ k ih =>
    have : List.replicate (k + 1) 0 ++ l = 0 :: (List.replicate k 0 ++ l) := by
      simp [List.replicate_succ]
    rw [this]
    simpa [beNat] using ih

theorem beNat_digits_reverse (n : Nat) : beNat (Nat.digits 256 n).reverse = n := by
  rw [beNat_eq_ofDigits, List.reverse_reverse, Nat.ofDigits_digits]

theorem beNat_inj :
    ∀ v w : List Nat, v.length = w.length → (∀ x ∈ v, x < 256) → (∀ x ∈ w, x < 256) →
      beNat v = beNat w → v = w := by
  intro v
  induction v using List.reverseRecOn with
  | nil =>
    intro w hlen _ _ _
    exact (List.eq_nil_of_length_eq_zero hlen.symm).symm
  | append_singleton l a ih =>
    intro w hlen hv hw hbe
    rcases w.eq_nil_or_concat with rfl | ⟨l', b, rfl⟩
    · simp at hlen
    · rw [List.concat_eq_append] at hlen hw hbe ⊢
      rw [beNat_append_singleton, beNat_append_singleton] at hbe
      have ha : a < 256 := hv a (by simp)
      have hb : b < 256 := hw b (by simp)
      have hab : a = b := by omega
      have hll : beNat l = beNat l' := by omega
      have hlen' : l.length = l'.length := by
        simpa using hlen
      have := ih l' hlen' (fun x hx => hv x (by simp [hx])) (fun x hx => hw x (by simp [hx])) hll
      rw [this, hab]

/-- Every index below 58 is recovered by `strings.IndexByte` from the
character it denotes. -/
theorem indexOf_getD_table : ∀ d < 58, b58table.indexOf? (b58table.getD d '1') = some d := by
  decide

theorem getD_table_mem : ∀ d < 58, b58table.getD d '1' ∈ b58table := by
  decide

theorem parseLoop_replicate_one (k : Nat) :
    ∀ acc, parseLoop (List.replicate k '1') acc = .ok (acc * 58 ^ k) := by
  induction k with
  | zero => intro acc; simp [parseLoop]
  | succ k ih =>
    intro acc
    have h1 : b58table.indexOf? '1' = some 0 := by decide
    rw [List.replicate_succ]
    simp only [parseLoop, h1]
    rw [ih (acc * 58 + 0)]
    ring_nf

theorem parseLoop_append (l1 l2 : List Char) :
    ∀ acc m, parseLoop l1 acc = .ok m → parseLoop (l1 ++ l2) acc = parseLoop l2 m := by
  induction l1 with
  | nil =>
    intro acc m h
    simp only [parseLoop] at h
    cases h
    simp
  | cons c l ih =>
    intro acc m h
    rw [List.cons_append, parseLoop]
    rw [parseLoop] at h
    cases hidx : b58table.indexOf? c with
    | none => rw [hidx] at h; exact absurd h (by simp)
    | some idx =>
      rw [hidx] at h
      exact ih _ m h

theorem parseLoop_map_digits (ds : List Nat) :
    ∀ acc, (∀ d ∈ ds, d < 58) →
      parseLoop (ds.map fun d => b58table.getD d '1') acc =
        .ok (ds.foldl (fun acc d => acc * 58 + d) acc) := by
  induction ds with
  | nil => intro acc _; simp [parseLoop]
  | cons d ds ih =>
    intro acc hds
    simp only [List.map_cons, parseLoop, indexOf_getD_table d (hds d (by simp))]
    rw [ih (acc * 58 + d) (fun x hx => hds x (by simp [hx]))]
    simp

theorem parseLoop_total (s : List Char) :
    ∀ acc, (∀ c ∈ s, c ∈ b58table) → ∃ m, parseLoop s acc = .ok m := by
  induction s with
  | nil => intro acc _; exact ⟨acc, rfl⟩
  | cons c s ih =>
    intro acc hs
    rw [parseLoop]
    cases hidx : b58table.indexOf? c with
    | none =>
      rw [List.indexOf?_eq_none_iff] at hidx
      have := hidx c (hs c (by simp))
      simp at this
    | some idx => exact ih _ (fun x hx => hs x (by simp [hx]))

theorem pow58_gt : (2 : Nat) ^ 128 < 58 ^ 22 := by norm_num

theorem pow256_eq : (256 : Nat) ^ 16 = 2 ^ 128 := by norm_num

/-- `ID.string` unfolded to its padded/reversed shape with `Nat.digits`. -/
theorem ID.string_eq (v : ID) :
    ID.string v =
      List.replicate (strlen - (Nat.digits 58 (beNat v.value)).length) '1' ++
        ((Nat.digits 58 (beNat v.value)).map fun d => b58table.getD d '1').reverse := by
  rw [ID.string]
  simp only [b58digitsRev_eq]
  have h1 : b58table.getD 0 '1' = '1' := by decide
  rw [h1, List.reverse_append, List.reverse_replicate]
  simp [List.length_map]

theorem string_length (v : ID) (hlen : v.value.length = 16)
    (hbytes : ∀ x ∈ v.value, x < 256) : (ID.string v).length = strlen := by
  have hn : beNat v.value < 2 ^ 128 := by
    have := beNat_lt v.value hbytes
    rwa [hlen, pow256_eq] at this
  have hd : (Nat.digits 58 (beNat v.value)).length ≤ 22 :=
    digits_length_le (by norm_num) (lt_trans hn pow58_gt)
  rw [ID.string_eq]
  simp only [List.length_append, List.length_replicate, List.length_reverse, List.length_map]
  rw [strlen]
  omega

theorem string_chars (v : ID) : ∀ c ∈ ID.string v, c ∈ b58table := by
  intro c hc
  rw [ID.string_eq] at hc
  rcases List.mem_append.mp hc with h | h
  · have := List.eq_of_mem_replicate h
    subst this
    decide
  · rw [List.mem_reverse] at h
    rcases List.mem_map.mp h with ⟨d, hd, rfl⟩
    exact getD_table_mem d (Nat.digits_lt_base (by norm_num) hd)

theorem parse_string (v : ID) (hlen : v.value.length = 16)
    (hbytes : ∀ x ∈ v.value, x < 256) : parse (ID.string v) = .ok v := by
  set n := beNat v.value with hn_def
  have hn : n < 2 ^ 128 := by
    have := beNat_lt v.value hbytes
    rwa [hlen, pow256_eq] at this
  have hd58 : ∀ d ∈ Nat.digits 58 n, d < 58 := fun d hd =>
    Nat.digits_lt_base (by norm_num) hd
  -- the scanning loop recovers n
  have hloop : parseLoop (ID.string v) 0 = .ok n := by
    rw [ID.string_eq]
    have h1 : parseLoop (List.replicate (strlen - (Nat.digits 58 n).length) '1') 0 =
        .ok (0 * 58 ^ (strlen - (Nat.digits 58 n).length)) := parseLoop_replicate_one _ 0
    rw [parseLoop_append _ _ 0 _ h1]
    rw [← List.map_reverse]
    rw [parseLoop_map_digits _ _ (fun d hd => hd58 d (List.mem_reverse.mp hd))]
    simp only [Nat.zero_mul]
    rw [foldl_mul_add_digits_reverse]
  -- the byte reconstruction recovers v.value
  have hblen : (Nat.digits 256 n).length ≤ 16 := by
    apply digits_length_le (by norm_num)
    rwa [pow256_eq]
  have hrec : (if (bigIntBytes n).length < 16 then
      List.replicate (16 - (bigIntBytes n).length) 0 ++ bigIntBytes n else bigIntBytes n) =
      List.replicate (16 - (Nat.digits 256 n).length) 0 ++ (Nat.digits 256 n).reverse := by
    rw [bigIntBytes_eq]
    by_cases h : (Nat.digits 256 n).reverse.length < 16
    · rw [if_pos h]
      simp
    · rw [if_neg h]
      have : (Nat.digits 256 n).length = 16 := by
        simp only [List.length_reverse] at h
        omega
      rw [this]
      simp
  set padded := List.replicate (16 - (Nat.digits 256 n).length) 0 ++ (Nat.digits 256 n).reverse
    with hp_def
  have hplen : padded.length = 16 := by
    rw [hp_def]
    simp only [List.length_append, List.length_replicate, List.length_reverse]
    omega
  have hpbytes : ∀ x ∈ padded, x < 256 := by
    intro x hx
    rcases List.mem_append.mp hx with h | h
    · have := List.eq_of_mem_replicate h
      omega
    · exact Nat.digits_lt_base (by norm_num) (List.mem_reverse.mp h)
  have hpbe : beNat padded = n := by
    rw [hp_def, beNat_replicate_zero_append, beNat_digits_reverse]
  have hcopy : goCopy (List.replicate 16 0) padded = padded := by
    rw [goCopy]
    simp only [List.length_replicate, hplen, min_self]
    rw [← hplen, List.take_length]
    simp
  have hpad_v : padded = v.value :=
    beNat_inj padded v.value (by rw [hplen, hlen]) hpbytes hbytes (by rw [hpbe])
  rw [parse, if_neg (by rw [string_length v hlen hbytes]; simp), hloop]
  show Except.ok (ID.mk (goCopy (List.replicate 16 0)
      (if (bigIntBytes n).length < 16 then
        List.replicate (16 - (bigIntBytes n).length) 0 ++ bigIntBytes n
      else bigIntBytes n))) = Except.ok v
  rw [hrec, hcopy, hpad_v]

/-- For every accepted string the decoded value is a well-formed 16-byte id. -/
theorem parse_wf (s : List Char) (v : ID) (h : parse s = .ok v) :
    v.value.length = 16 ∧ ∀ x ∈ v.value, x < 256 := by
  rw [parse] at h
  split at h
  · exact absurd h (by simp)
  · rename_i hlen
    cases hm : parseLoop s 0 with
    | error e => rw [hm] at h; exact absurd h (by simp)
    | ok result =>
      rw [hm] at h
      simp only at h
      cases h
      constructor
      · rw [goCopy]
        simp only [List.length_append, List.length_take, List.length_drop,
          List.length_replicate]
        omega
      · intro x hx
        rcases List.mem_append.mp hx with hx | hx
        · have hx' := List.mem_of_mem_take hx
          split at hx'
          · rcases List.mem_append.mp hx' with h' | h'
            · have := List.eq_of_mem_replicate h'
              omega
            · rw [bigIntBytes_eq] at h'
              exact Nat.digits_lt_base (by norm_num) (List.mem_reverse.mp h')
          · rw [bigIntBytes_eq] at hx'
            exact Nat.digits_lt_base (by norm_num) (List.mem_reverse.mp hx')
        · have := List.eq_of_mem_replicate (List.mem_of_mem_drop hx)
          omega

/-! ## Claim C2 and claim C10 -/

/-- Claim C2: for every 16-byte identifier value `v` (including all-zero and
all-one), `String(v)` yields exactly 22 characters all drawn from the fixed
58-symbol alphabet, and `Parse(String(v))` succeeds and returns exactly `v`. -/
theorem claim_C2 (v : ID) (hlen : v.value.length = 16)
    (hbytes : ∀ x ∈ v.value, x < 256) :
    (ID.string v).length = 22 ∧ (∀ c ∈ ID.string v, c ∈ b58table) ∧
      parse (ID.string v) = .ok v :=
  ⟨string_length v hlen hbytes, string_chars v, parse_string v hlen hbytes⟩

/-- Witness for claim C2 at the all-zero and the all-one identifier. -/
theorem claim_C2_witness :
    ((List.replicate 16 0).length = 16 ∧ (∀ x ∈ List.replicate 16 (0 : Nat), x < 256) ∧
      parse (ID.string ⟨List.replicate 16 0⟩) = .ok ⟨List.replicate 16 0⟩) ∧
    ((List.replicate 16 255).length = 16 ∧ (∀ x ∈ List.replicate 16 (255 : Nat), x < 256) ∧
      parse (ID.string ⟨List.replicate 16 255⟩) = .ok ⟨List.replicate 16 255⟩) :=
  ⟨⟨by decide, by decide, (claim_C2 ⟨List.replicate 16 0⟩ (by decide) (by decide)).2.2⟩,
   ⟨by decide, by decide, (claim_C2 ⟨List.replicate 16 255⟩ (by decide) (by decide)).2.2⟩⟩

/-- Claim C10: `Parse` is not injective on the 22-character strings it
accepts: it accepts every 22-character string over the base-58 alphabet,
including strings encoding integers of `2^128` or more (the decoded bytes are
silently truncated to the first 16); hence two distinct accepted strings
decode to the same identifier, and for some accepted `s`,
`String(Parse(s)) ≠ s`.  The string `"YcVfxkQb6JRzqk5kF2tNLw"` encodes
`2^128`; its truncation collides with `"18AQGAut7N92awznwCnjuR"`, the
canonical encoding of `2^120`. -/
theorem claim_C10 :
    (∀ s : List Char, s.length = 22 → (∀ c ∈ s, c ∈ b58table) →
      ∃ v, parse s = .ok v) ∧
    (parseLoop (String.toList "YcVfxkQb6JRzqk5kF2tNLw") 0 = .ok (2 ^ 128) ∧
      parse (String.toList "YcVfxkQb6JRzqk5kF2tNLw") =
        .ok ⟨(bigIntBytes (2 ^ 128)).take 16⟩) ∧
    (∃ s1 s2 : List Char, s1 ≠ s2 ∧
      s1.length = 22 ∧ (∀ c ∈ s1, c ∈ b58table) ∧
      s2.length = 22 ∧ (∀ c ∈ s2, c ∈ b58table) ∧
      parse s1 = parse s2 ∧ (∃ v, parse s1 = .ok v)) ∧
    (∃ s : List Char, s.length = 22 ∧ (∀ c ∈ s, c ∈ b58table) ∧
      ∃ v, parse s = .ok v ∧ ID.string v ≠ s) := by
  refine ⟨?_, ⟨rfl, rfl⟩, ?_, ?_⟩
  · intro s hl hc
    rcases parseLoop_total s 0 hc with ⟨m, hm⟩
    rw [parse, if_neg (by rw [hl]; simp [strlen]), hm]
    exact ⟨_, rfl⟩
  · exact ⟨String.toList "YcVfxkQb6JRzqk5kF2tNLw", String.toList "18AQGAut7N92awznwCnjuR",
      by decide, by decide, by decide, by decide, by decide, rfl,
      ⟨⟨1 :: List.replicate 15 0⟩, rfl⟩⟩
  · exact ⟨String.toList "YcVfxkQb6JRzqk5kF2tNLw", by decide, by decide,
      ⟨1 :: List.replicate 15 0⟩, rfl, by decide⟩

/-- Witness for claim C10's universally quantified acceptance clause at a
concrete accepted string. -/
theorem claim_C10_witness :
    (String.toList "zzzzzzzzzzzzzzzzzzzzzz").length = 22 ∧
    (∀ c ∈ String.toList "zzzzzzzzzzzzzzzzzzzzzz", c ∈ b58table) ∧
    (∃ v, parse (String.toList "zzzzzzzzzzzzzzzzzzzzzz") = .ok v) :=
  ⟨by decide, by decide, claim_C10.1 _ (by decide) (by decide)⟩

/-! ## The `fs` package (`src/fs/fs.go`)

The store is modelled sequentially: mutex lock/unlock calls are elided (they
do not affect the data behaviour of a single operation).  A Go nil-pointer
dereference is the distinguished outcome `GoResult.panic`; mutations performed
before a panic persist, so every operation returns the (possibly updated)
state together with its outcome. -/

/-- `type record struct { Children []id.ID; IsDir bool; Name string; id id.ID;
refs uint; mutex sync.Mutex }`.  The `id` field is the association-list key;
`refs` is the unexported reference count (`json:"-"`). -/
structure Record where
  children : List ID
  isDir : Bool
  name : String
  refs : Nat
deriving DecidableEq, Repr

/-- Outcome of a Go call: normal return, non-nil error, or runtime panic. -/
inductive GoResult (α : Type) where
  | ok (a : α)
  | goError (msg : String)
  | panic
deriving DecidableEq, Repr

/-- The store: the in-memory index (`records`), the configured root, the file
names present in the storage root (`baseDisk`) and in the process working
directory (`cwdDisk`; `os.Remove` with a bare file name resolves there). -/
structure FsState where
  records : List (ID × Record)
  root : ID
  baseDisk : List (List Char)
  cwdDisk : List (List Char)
deriving DecidableEq, Repr

/-- Go map assignment `m[k] = v`. -/
def mapSet (m : List (ID × Record)) (k : ID) (v : Record) : List (ID × Record) :=
  (m.filter fun p => p.1 != k) ++ [(k, v)]

/-- `func (fs *Fs) record(u id.ID) (*record, error)`.  As written the
presence test is inverted: `r, e := fs.records[u]; if e { return nil,
errors.New("id doesn't exist") }; return r, nil` errors exactly when `u` IS in
the map, and on a missing `u` returns the zero-value pointer `r = nil` with a
nil error.  Either way the returned pointer is nil, modelled as `none`. -/
def Fs.record (s : FsState) (u : ID) : Option (ID × Record) × Option String :=
  match s.records.lookup u with
  | some _ => (none, some "id doesn't exist")
  | none => (none, none)

/-- `func (fs *Fs) writeRecord(r *record) error`: `os.Create` the file named
by the record's id in the storage root and JSON-encode the record into it.
File contents are tracked only as existence of the name. -/
def Fs.writeRecord (s : FsState) (r : ID) : FsState :=
  if ID.string r ∈ s.baseDisk then s
  else { s with baseDisk := s.baseDisk ++ [ID.string r] }

/-- Result of `newRecord`: `(child, fs.writeRecord(child))` on the normal
path, `(nil, error)` on the defensive duplicate check, or a panic. -/
inductive NewRecResult where
  | okRec (newID : ID)
  | nilRec (msg : String)
  | panic
deriving DecidableEq, Repr

/-- `func (fs *Fs) newRecord(parent *record, name string, dir bool)`:
builds the child (`Children = []`, fresh id, `refs = 1`), inserts it into the
index (`fs.setRecord`), then scans `parent.Children` for the fresh id
(dereferencing `parent`, so a nil parent panics here), appends the child to
the parent's children through the pointer, and persists the child.  The
freshly drawn `id.New()` is the explicit argument `newId`. -/
def Fs.newRecord (s : FsState) (parent : Option (ID × Record)) (newId : ID)
    (name : String) (dir : Bool) : FsState × NewRecResult :=
  let child : Record := { children := [], isDir := dir, name := name, refs := 1 }
  let s1 := { s with records := mapSet s.records newId child }
  match parent with
  | none => (s1, .panic)
  | some (pk, pr) =>
    if newId ∈ pr.children then (s1, .nilRec "child already there")
    else
      let pr1 : Record := { pr with children := pr.children ++ [newId] }
      let s2 := { s1 with records := mapSet s1.records pk pr1 }
      (Fs.writeRecord s2 newId, .okRec newId)

/-- `func (fs *Fs) Touch(parentID id.ID, name string) (id.ID, error)`.
On a lookup error it returns `id.ID{}, err`; otherwise it returns `r.id, err`
where `r` is `newRecord`'s pointer result (dereferencing `r`, so a nil `r`
panics). -/
def Fs.touch (s : FsState) (parentID : ID) (newId : ID) (name : String) :
    FsState × GoResult ID :=
  match Fs.record s parentID with
  | (_, some e) => (s, .goError e)
  | (parent, none) =>
    match Fs.newRecord s parent newId name false with
    | (s', .okRec i) => (s', .ok i)
    | (s', .nilRec _) => (s', .panic)
    | (s', .panic) => (s', .panic)

/-- `func (fs *Fs) Mkdir(parentID id.ID, name string) (id.ID, error)`.
As written the lookup-error branch is `return id.ID{}, nil`; it reports
success with the zero identifier. -/
def Fs.mkdir (s : FsState) (parentID : ID) (newId : ID) (name : String) :
    FsState × GoResult ID :=
  match Fs.record s parentID with
  | (_, some _) => (s, .ok zeroID)
  | (parent, none) =>
    match Fs.newRecord s parent newId name true with
    | (s', .okRec i) => (s', .ok i)
    | (s', .nilRec _) => (s', .panic)
    | (s', .panic) => (s', .panic)

/-- `func removeID(s []id.ID, v id.ID) ([]id.ID, error)`: the first loop
stops at the first occurrence of `v` (index `pos`); the second loop resumes at
that same index `i = pos`, so whenever `v` occurs at all it immediately
re-examines `s[pos]` and reports `"duplicite id"`; with no occurrence it
reports `"id not found"`.  The swap-remove tail is therefore unreachable. -/
def removeID (s : List ID) (v : ID) : List ID × Option String :=
  match s.indexOf? v with
  | some pos =>
    if (s.drop pos).any (· == v) then (s, some "duplicite id")
    else ((s.set pos (s.getLastD v)).dropLast, none)
  | none => (s, some "id not found")

/-- `func (fs *Fs) GetChildren(u id.ID) ([]id.ID, error)`:
`return fs.records[u].Children, nil` — a missing key yields the zero-value
nil pointer, whose `.Children` dereference panics; the error is always nil. -/
def Fs.getChildren (s : FsState) (u : ID) : GoResult (List ID) :=
  match s.records.lookup u with
  | some r => .ok r.children
  | none => .panic

/-- `func (fs *Fs) Mount(parent id.ID, newChild id.ID) error`: look up the
child, then the parent; `rec.lock()` dereferences the parent pointer (nil →
panic); duplicate edge check; append the edge through the parent pointer;
`child.lock()`/`refs++` dereferences the child pointer (nil → panic); persist
the parent. -/
def Fs.mount (s : FsState) (parent newChild : ID) : FsState × GoResult Unit :=
  match Fs.record s newChild with
  | (_, some e) => (s, .goError e)
  | (childPtr, none) =>
    match Fs.record s parent with
    | (_, some e) => (s, .goError e)
    | (recPtr, none) =>
      match recPtr with
      | none => (s, .panic)
      | some (pk, pr) =>
        if newChild ∈ pr.children then (s, .goError "child with this id already exists")
        else
          let pr1 : Record := { pr with children := pr.children ++ [newChild] }
          let s1 := { s with records := mapSet s.records pk pr1 }
          match childPtr with
          | none => (s1, .panic)
          | some (ck, cr) =>
            let s2 := { s1 with records := mapSet s1.records ck ({ cr with refs := cr.refs + 1 }) }
            (Fs.writeRecord s2 pk, .ok ())

/-- `os.Remove(name)` with a bare file name: resolved against the working
directory; fails when no such file exists there. -/
def osRemoveCwd (s : FsState) (name : List Char) : FsState × Option String :=
  if name ∈ s.cwdDisk then ({ s with cwdDisk := s.cwdDisk.erase name }, none)
  else (s, some "remove: no such file or directory")

/-- The second loop of `deleteRecord`: over the `os.ReadDir(fs.basePath)`
snapshot, `os.Remove(e.Name())` every entry whose name has the record's id
string as a prefix, stopping at the first failure. -/
def removeMatchingEntries (s : FsState) (idStr : List Char) :
    List (List Char) → FsState × Option String
  | [] => (s, none)
  | e :: rest =>
    if idStr.isPrefixOf e then
      match osRemoveCwd s e with
      | (s', none) => removeMatchingEntries s' idStr rest
      | (s', some err) => (s', some err)
    else removeMatchingEntries s idStr rest

/-- `func (fs *Fs) Unmount(parentID, childID id.ID) error` together with the
inlined `func (fs *Fs) deleteRecord(r *record) error` it calls when the
child's reference count reaches zero.  `deleteRecord` first unmounts each of
the record's children (recursing back into `Unmount`), then removes every
storage-root entry prefixed by the id string via `os.Remove` on the bare
name.  The mutual recursion is bounded by explicit fuel; the recursive branch
is unreachable (see `unmountAux_state`), so the fuel never runs out on any
realised path.  Go's `range` over the child list iterates the slice header
captured at loop entry, modelled as a fold over that list value. -/
def unmountAux : Nat → FsState → ID → ID → FsState × GoResult Unit
  | 0, s, _, _ => (s, .goError "model: recursion fuel exhausted")
  | fuel + 1, s, parentID, childID =>
    match Fs.record s parentID with
    | (_, some e) => (s, .goError e)
    | (parentPtr, none) =>
      match parentPtr with
      | none => (s, .panic)
      | some (pk, pr) =>
        match removeID pr.children childID with
        | (_, some e) => (s, .goError e)
        | (newChildren, none) =>
          let s1 := { s with records := mapSet s.records pk ({ pr with children := newChildren }) }
          let s2 := Fs.writeRecord s1 pk
          match Fs.record s2 childID with
          | (_, some e) => (s2, .goError e)
          | (childPtr, none) =>
            match childPtr with
            | none => (s2, .panic)
            | some (ck, cr) =>
              let cr1 := { cr with refs := cr.refs - 1 }
              let s3 := { s2 with records := mapSet s2.records ck cr1 }
              if cr1.refs = 0 then
                match cr1.children.foldl (fun acc u =>
                    match acc with
                    | (s', GoResult.ok _) => unmountAux fuel s' ck u
                    | other => other) (s3, GoResult.ok ()) with
                | (s4, .goError e) => (s4, .goError e)
                | (s4, .panic) => (s4, .panic)
                | (s4, .ok _) =>
                  match removeMatchingEntries s4 (ID.string ck) s4.baseDisk with
                  | (s5, some e) => (s5, .goError e)
                  | (s5, none) => (s5, .ok ())
              else (s3, .ok ())

/-- `Fs.Unmount` with enough fuel for any store. -/
def Fs.unmount (s : FsState) (parentID childID : ID) : FsState × GoResult Unit :=
  unmountAux (s.records.length + 1) s parentID childID

/-! ## Load-on-start (`loadRecords`, `NewFs`) -/

/-- The character class `[1-9A-HJ-NP-Za-km-z]` of `idPattern`. -/
def isIdChar (c : Char) : Bool :=
  ('1' ≤ c && c ≤ '9') || ('A' ≤ c && c ≤ 'H') || ('J' ≤ c && c ≤ 'N') ||
    ('P' ≤ c && c ≤ 'Z') || ('a' ≤ c && c ≤ 'k') || ('m' ≤ c && c ≤ 'z')

/-- The character class `[a-zA-Z0-9_-]` of `sectionPattern`. -/
def isSectionChar (c : Char) : Bool :=
  ('a' ≤ c && c ≤ 'z') || ('A' ≤ c && c ≤ 'Z') || ('0' ≤ c && c ≤ '9') ||
    c == '_' || c == '-'

/-- `onlyFileInFsRootPattern = ^[1-9A-HJ-NP-Za-km-z]{22}(\.[a-zA-Z0-9_-]+)?$`:
exactly 22 identifier characters, optionally followed by a dot and a nonempty
section name. -/
def matchesFileInFsRoot (s : List Char) : Bool :=
  (s.take 22).length == 22 && (s.take 22).all isIdChar &&
    (match s.drop 22 with
     | [] => true
     | '.' :: rest => !rest.isEmpty && rest.all isSectionChar
     | _ => false)

/-- The JSON document of a record file: `{children, is_dir, name}`.  The
unexported fields `id`, `refs`, `mutex` carry `json:"-"` and are not
serialised. -/
structure RecordDoc where
  children : List ID
  isDir : Bool
  name : String
deriving DecidableEq, Repr

/-- A directory entry of the storage root as `os.ReadDir` reports it.  JSON
decoding is abstracted: `content` is the decoded record document, or `none`
when the file's bytes fail to decode. -/
structure DirEntry where
  name : List Char
  isDir : Bool
  content : Option RecordDoc
deriving DecidableEq, Repr

/-- The first loop of `loadRecords`: reject any directory, reject any name not
matching `onlyFileInFsRootPatternRegex`, and collect the names of length 22
(the bare record files) in order. -/
def collectRecordFiles : List DirEntry → Except String (List DirEntry)
  | [] => .ok []
  | e :: rest =>
    if e.isDir then .error "garbage directory in fs root"
    else if !matchesFileInFsRoot e.name then .error "garbage file in fs root"
    else
      match collectRecordFiles rest with
      | .error err => .error err
      | .ok files => .ok (if e.name.length == 22 then e :: files else files)

/-- The second loop of `loadRecords`: `id.Parse` the name, decode the file
into a fresh `record` (whose unexported `refs` field is therefore the zero
value 0), and insert it into the index. -/
def loadRecordFiles : List (ID × Record) → List DirEntry → Except String (List (ID × Record))
  | m, [] => .ok m
  | m, e :: rest =>
    match parse e.name with
    | .error err => .error err
    | .ok u =>
      match e.content with
      | none => .error "json decore err"
      | some doc =>
        loadRecordFiles
          (mapSet m u { children := doc.children, isDir := doc.isDir, name := doc.name, refs := 0 })
          rest

/-- `func (fs *Fs) loadRecords() error`. -/
def loadRecords (entries : List DirEntry) : Except String (List (ID × Record)) :=
  match collectRecordFiles entries with
  | .error e => .error e
  | .ok files => loadRecordFiles [] files

/-- `func NewFs(root id.ID, basePath string) (fs *Fs, err error)`: load the
records, then require the configured root to be present in the index
(`checkLoadedRecordsAreSane` is a stub that always reports success).  The
`entries` argument is the storage root's directory listing; `cwd` is the
process working directory's listing. -/
def newFs (root : ID) (entries : List DirEntry) (cwd : List (List Char)) :
    Except String FsState :=
  match loadRecords entries with
  | .error e => .error e
  | .ok m =>
    match m.lookup root with
    | none => .error "the root ID not found in fs"
    | some _ =>
      .ok { records := m, root := root, baseDisk := entries.map (·.name), cwdDisk := cwd }

/-! ## Behaviour of the operations as written

Because `Fs.record` errors exactly on present ids and returns a nil pointer
on absent ids, `Mount` and `Unmount` never get past their lookups, and
`Touch`/`Mkdir` reach `newRecord` only with a nil parent. -/

theorem mount_state (s : FsState) (p c : ID) : (Fs.mount s p c).1 = s := by
  rw [Fs.mount, Fs.record]
  cases s.records.lookup c <;> cases hp : s.records.lookup p <;>
    simp [Fs.record, hp]

theorem unmountAux_state (fuel : Nat) (s : FsState) (p c : ID) :
    (unmountAux fuel s p c).1 = s := by
  cases fuel with
  | zero => rfl
  | succ fuel =>
    rw [unmountAux, Fs.record]
    cases s.records.lookup p <;> simp

theorem unmount_state (s : FsState) (p c : ID) : (Fs.unmount s p c).1 = s :=
  unmountAux_state _ s p c

/-- The only state `Touch` can produce besides the unchanged one: the orphan
child inserted by `newRecord` just before the nil-parent dereference. -/
theorem touch_state (s : FsState) (p newId : ID) (name : String) :
    (Fs.touch s p newId name).1 = s ∨
      (Fs.touch s p newId name).1 =
        { s with records :=
            mapSet s.records newId { children := [], isDir := false, name := name, refs := 1 } } := by
  rw [Fs.touch, Fs.record]
  cases s.records.lookup p <;> simp [Fs.newRecord]

theorem mkdir_state (s : FsState) (p newId : ID) (name : String) :
    (Fs.mkdir s p newId name).1 = s ∨
      (Fs.mkdir s p newId name).1 =
        { s with records :=
            mapSet s.records newId { children := [], isDir := true, name := name, refs := 1 } } := by
  rw [Fs.mkdir, Fs.record]
  cases s.records.lookup p <;> simp [Fs.newRecord]

/-- One store operation, with arbitrary arguments (including the freshly
generated identifier an operation may draw). -/
inductive Step : FsState → FsState → Prop
  | touch (s : FsState) (p newId : ID) (name : String) :
      Step s (Fs.touch s p newId name).1
  | mkdir (s : FsState) (p newId : ID) (name : String) :
      Step s (Fs.mkdir s p newId name).1
  | mount (s : FsState) (p c : ID) : Step s (Fs.mount s p c).1
  | unmount (s : FsState) (p c : ID) : Step s (Fs.unmount s p c).1

/-- Invariant (a) of the spec: refcount = number of distinct parents whose
children list contains the id; invariant (b): children lists are
duplicate-free. -/
def refcountInvariant (s : FsState) : Prop :=
  ∀ p ∈ s.records,
    p.2.refs = (s.records.countP fun q => p.1 ∈ q.2.children) ∧ p.2.children.Nodup

/-- Invariant (b) alone. -/
def childrenNodup (s : FsState) : Prop := ∀ p ∈ s.records, p.2.children.Nodup

/-- Claim C1 as stated: every state reachable from any freshly loaded store
satisfies both invariants. -/
def C1Claim : Prop :=
  ∀ (root : ID) (entries : List DirEntry) (cwd : List (List Char)) (s₀ : FsState),
    newFs root entries cwd = .ok s₀ →
    ∀ s, Relation.ReflTransGen Step s₀ s → refcountInvariant s

theorem childrenNodup_mapSet {m : List (ID × Record)} {k : ID} {v : Record}
    (h : ∀ p ∈ m, p.2.children.Nodup) (hv : v.children.Nodup) :
    ∀ p ∈ mapSet m k v, p.2.children.Nodup := by
  intro p hp
  rcases List.mem_append.mp hp with hp | hp
  · exact h p (List.mem_of_mem_filter hp)
  · simp only [List.mem_singleton] at hp
    subst hp
    exact hv

theorem childrenNodup_step {s s' : FsState} (h : childrenNodup s) (hs : Step s s') :
    childrenNodup s' := by
  cases hs with
  | touch p newId name =>
    rcases touch_state s p newId name with heq | heq <;> rw [heq]
    · exact h
    · exact childrenNodup_mapSet h (by simp)
  | mkdir p newId name =>
    rcases mkdir_state s p newId name with heq | heq <;> rw [heq]
    · exact h
    · exact childrenNodup_mapSet h (by simp)
  | mount p c => rw [mount_state]; exact h
  | unmount p c => rw [unmount_state]; exact h

/-! ## Concrete fixtures -/

def idA : ID := ⟨List.replicate 15 0 ++ [1]⟩
def idB : ID := ⟨List.replicate 15 0 ++ [2]⟩
def idC : ID := ⟨List.replicate 15 0 ++ [3]⟩

/-- A freshly loaded store holding only the root record. -/
def st1 : FsState :=
  { records := [(zeroID, { children := [], isDir := true, name := "", refs := 0 })],
    root := zeroID,
    baseDisk := [String.toList "1111111111111111111111"],
    cwdDisk := [] }

/-- Root with child `idA` already mounted, plus an unrelated record `idB`. -/
def st2 : FsState :=
  { records := [(zeroID, { children := [idA], isDir := true, name := "", refs := 0 }),
                (idA, { children := [], isDir := false, name := "a", refs := 1 }),
                (idB, { children := [], isDir := false, name := "b", refs := 1 })],
    root := zeroID, baseDisk := [], cwdDisk := [] }

/-- Child `idC` mounted under both `zeroID` and `idB`, refcount 2. -/
def st3 : FsState :=
  { records := [(zeroID, { children := [idC], isDir := true, name := "", refs := 0 }),
                (idB, { children := [idC], isDir := true, name := "d", refs := 1 }),
                (idC, { children := [], isDir := false, name := "c", refs := 2 })],
    root := zeroID, baseDisk := [], cwdDisk := [] }

/-- Child `idA` with refcount 1 under the root; its record file and a `data`
section file exist in the storage root. -/
def st4 : FsState :=
  { records := [(zeroID, { children := [idA], isDir := true, name := "", refs := 0 }),
                (idA, { children := [], isDir := false, name := "a", refs := 1 })],
    root := zeroID,
    baseDisk := [String.toList "1111111111111111111111",
                 String.toList "1111111111111111111112",
                 String.toList "1111111111111111111112.data"],
    cwdDisk := [] }

/-- Storage-root listing with a root record pointing at a child record. -/
def c1Entries : List DirEntry :=
  [{ name := String.toList "1111111111111111111111", isDir := false,
     content := some { children := [idA], isDir := true, name := "root" } },
   { name := String.toList "1111111111111111111112", isDir := false,
     content := some { children := [], isDir := false, name := "c" } }]

/-- The store `newFs` builds from `c1Entries`: both records load with
`refs = 0` because the unexported `refs` field is not serialised. -/
def c1Loaded : FsState :=
  { records := [(zeroID, { children := [idA], isDir := true, name := "root", refs := 0 }),
                (idA, { children := [], isDir := false, name := "c", refs := 0 })],
    root := zeroID,
    baseDisk := [String.toList "1111111111111111111111",
                 String.toList "1111111111111111111112"],
    cwdDisk := [] }

/-- The refcount-conditional variant of claim C1: even assuming the freshly
loaded store satisfies both invariants, every reachable state does. -/
def C1ClaimCond : Prop :=
  ∀ (root : ID) (entries : List DirEntry) (cwd : List (List Char)) (s₀ : FsState),
    newFs root entries cwd = .ok s₀ → refcountInvariant s₀ →
    ∀ s, Relation.ReflTransGen Step s₀ s → refcountInvariant s

/-! ## Claim C1 -/

/-- Counterexample to claim C1 as stated.  (i) `newFs` loads `c1Entries` into
`c1Loaded`, where `idA` is referenced by one parent but has refcount 0 (the
`refs` field is not persisted and load does not recompute it), so the
invariant already fails in the freshly loaded store with the empty operation
sequence.  (ii) Even restricted to loaded stores that satisfy the invariant,
one `Touch` step with an absent parent id inserts a refcount-1 orphan record
(before panicking on the nil parent), violating the invariant again. -/
theorem claim_C1_counterexample : ¬ C1Claim ∧ ¬ C1ClaimCond := by
  constructor
  · intro h
    have h0 : newFs zeroID c1Entries [] = .ok c1Loaded := by rfl
    have h1 := h zeroID c1Entries [] c1Loaded h0 c1Loaded Relation.ReflTransGen.refl
    have h2 := (h1 (idA, { children := [], isDir := false, name := "c", refs := 0 })
      (by decide)).1
    exact absurd h2 (by decide)
  · intro h
    have h0 : newFs zeroID [⟨String.toList "1111111111111111111111", false,
        some { children := [], isDir := true, name := "" }⟩] [] = .ok st1 := by rfl
    have hinv : refcountInvariant st1 := by unfold refcountInvariant; decide
    have hstep : Step st1 (Fs.touch st1 idB idA "a").1 := Step.touch st1 idB idA "a"
    have h1 := h zeroID _ [] st1 h0 hinv (Fs.touch st1 idB idA "a").1
      (Relation.ReflTransGen.single hstep)
    have h2 := (h1 (idA, { children := [], isDir := false, name := "a", refs := 1 })
      (by decide)).1
    exact absurd h2 (by decide)

/-- Claim C1 amended: of the two invariants only duplicate-freeness of the
children lists survives on the code as written, and only relative to the
loaded state: every state reachable from a freshly loaded store whose loaded
children lists are duplicate-free again has duplicate-free children lists.
The refcount clause fails already at load (refcounts are not persisted and
load does not recompute them) and is additionally broken by `Touch`/`Mkdir`
on an absent parent, which insert a refcount-1 record referenced by no
parent. -/
theorem claim_C1 (root : ID) (entries : List DirEntry) (cwd : List (List Char))
    (s₀ : FsState) (_hload : newFs root entries cwd = .ok s₀) (h0 : childrenNodup s₀) :
    ∀ s, Relation.ReflTransGen Step s₀ s → childrenNodup s := by
  intro s hreach
  induction hreach with
  | refl => exact h0
  | tail _ hstep ih => exact childrenNodup_step ih hstep

/-- Witness for claim C1's amended statement on a concrete loaded store and a
concrete operation sequence. -/
theorem claim_C1_witness :
    newFs zeroID c1Entries [] = .ok c1Loaded ∧ childrenNodup c1Loaded ∧
      childrenNodup (Fs.mount c1Loaded zeroID idA).1 :=
  ⟨by rfl, by unfold childrenNodup; decide,
    claim_C1 zeroID c1Entries [] c1Loaded (by rfl) (by unfold childrenNodup; decide) _
      (Relation.ReflTransGen.single (Step.mount c1Loaded zeroID idA))⟩

/-! ## Claims C3 to C8: behaviour of the operations at concrete stores -/

/-- Claim C3 (code bug): in `st4` the child `idA` exists with refcount 1
under the sole parent `zeroID`, yet `Unmount(zeroID, idA)` does not drop the
refcount to 0 and delete the child — it fails with the inverted-lookup error
`"id doesn't exist"` and leaves the store untouched: afterwards
`GetChildren(idA)` still answers (it does not fail NotFound), the child's
record file and its `.data` section file are still present, and the refcount
is still 1. -/
theorem claim_C3 :
    (st4.records.lookup idA).isSome = true ∧
    st4.records.lookup idA =
      some { children := [], isDir := false, name := "a", refs := 1 } ∧
    Fs.unmount st4 zeroID idA = (st4, .goError "id doesn't exist") ∧
    Fs.getChildren (Fs.unmount st4 zeroID idA).1 idA = .ok [] ∧
    String.toList "1111111111111111111112" ∈ (Fs.unmount st4 zeroID idA).1.baseDisk ∧
    String.toList "1111111111111111111112.data" ∈ (Fs.unmount st4 zeroID idA).1.baseDisk ∧
    (Fs.unmount st4 zeroID idA).1.records.lookup idA =
      some { children := [], isDir := false, name := "a", refs := 1 } := by
  refine ⟨by decide, by decide, by decide, by decide, by decide, by decide, by decide⟩

/-- Claim C4 (code bug): in `st3` the child `idC` has refcount 2 and is
mounted under both `zeroID` and `idB`, yet `Unmount(zeroID, idC)` does not
succeed — it fails with `"id doesn't exist"` (the inverted lookup) and leaves
the store unchanged, so `idC` is NOT removed from `zeroID`'s children and its
refcount stays 2 rather than dropping to 1. -/
theorem claim_C4 :
    st3.records.lookup zeroID =
      some { children := [idC], isDir := true, name := "", refs := 0 } ∧
    st3.records.lookup idB =
      some { children := [idC], isDir := true, name := "d", refs := 1 } ∧
    st3.records.lookup idC =
      some { children := [], isDir := false, name := "c", refs := 2 } ∧
    Fs.unmount st3 zeroID idC = (st3, .goError "id doesn't exist") ∧
    Fs.getChildren (Fs.unmount st3 zeroID idC).1 zeroID = .ok [idC] ∧
    (Fs.unmount st3 zeroID idC).1.records.lookup idC =
      some { children := [], isDir := false, name := "c", refs := 2 } := by
  refine ⟨by decide, by decide, by decide, by decide, by decide, by decide⟩

/-- Claim C5 (code bug): with the parent `zeroID` present in `st1`, `Touch`
does not create anything — the inverted lookup makes it fail with
`"id doesn't exist"` — and `Mkdir` takes the same error branch but returns
`id.ID{}, nil`: it reports success with the all-zero identifier while
creating no record, mounting nothing under the parent, and persisting
nothing. -/
theorem claim_C5 :
    (st1.records.lookup zeroID).isSome = true ∧
    Fs.touch st1 zeroID idA "a.txt" = (st1, .goError "id doesn't exist") ∧
    Fs.mkdir st1 zeroID idA "photos" = (st1, .ok zeroID) ∧
    st1.records.lookup idA = none ∧
    Fs.getChildren st1 zeroID = .ok [] := by
  refine ⟨by decide, by decide, by decide, by decide, by decide⟩

/-- Claim C6 (code bug): with the parent `idB` absent from `st1`'s index,
`Touch` does not fail with NotFound and leave the store unchanged — the
inverted lookup hands `newRecord` a nil parent pointer, so the store gains an
orphan refcount-1 record for the fresh id before the nil dereference panics
(`Mkdir` behaves identically). -/
theorem claim_C6 :
    st1.records.lookup idB = none ∧
    Fs.touch st1 idB idA "a" =
      ({ records := [(zeroID, { children := [], isDir := true, name := "", refs := 0 }),
                     (idA, { children := [], isDir := false, name := "a", refs := 1 })],
         root := zeroID,
         baseDisk := [String.toList "1111111111111111111111"],
         cwdDisk := [] }, .panic) ∧
    (Fs.touch st1 idB idA "a").1 ≠ st1 ∧
    Fs.mkdir st1 idB idA "a" =
      ({ records := [(zeroID, { children := [], isDir := true, name := "", refs := 0 }),
                     (idA, { children := [], isDir := true, name := "a", refs := 1 })],
         root := zeroID,
         baseDisk := [String.toList "1111111111111111111111"],
         cwdDisk := [] }, .panic) := by
  refine ⟨by decide, by decide, by decide, by decide⟩

/-- Claim C7 (code bug): in `st2` the child `idA` is already among the
parent's children, yet `Mount(zeroID, idA)` does not fail with the
InvalidArgument duplicate-edge error `"child with this id already exists"` —
the inverted lookup on the child makes it fail with `"id doesn't exist"`
first.  The store is left unchanged, but for the wrong reason: mounting the
NOT-yet-mounted existing record `idB` fails identically, so the duplicate
check is never reached. -/
theorem claim_C7 :
    st2.records.lookup zeroID =
      some { children := [idA], isDir := true, name := "", refs := 0 } ∧
    (st2.records.lookup idA).isSome = true ∧
    (st2.records.lookup idB).isSome = true ∧
    Fs.mount st2 zeroID idA = (st2, .goError "id doesn't exist") ∧
    Fs.mount st2 zeroID idB = (st2, .goError "id doesn't exist") := by
  refine ⟨by decide, by decide, by decide, by decide, by decide⟩

/-- Claim C8 (code bug): `GetChildren` returns the current children when the
id is present, but on an absent id it does not fail NotFound — it
dereferences the nil pointer produced by the map miss and panics (the error
it returns is always nil). -/
theorem claim_C8 :
    Fs.getChildren st1 zeroID = .ok [] ∧
    st1.records.lookup idB = none ∧
    Fs.getChildren st1 idB = .panic := by
  refine ⟨by decide, by decide, by decide⟩

/-! ## Claim C9 -/

theorem collectRecordFiles_error (entries : List DirEntry)
    (h : ∃ e ∈ entries, e.isDir = true ∨ matchesFileInFsRoot e.name = false) :
    ∃ msg, collectRecordFiles entries = .error msg := by
  induction entries with
  | nil => simp at h
  | cons e rest ih =>
    rw [collectRecordFiles]
    by_cases hdir : e.isDir
    · exact ⟨_, by rw [if_pos hdir]⟩
    · rw [if_neg hdir]
      by_cases hm : matchesFileInFsRoot e.name
      · rw [if_neg (by simp [hm])]
        have : ∃ x ∈ rest, x.isDir = true ∨ matchesFileInFsRoot x.name = false := by
          rcases h with ⟨x, hx, hbad⟩
          rcases List.mem_cons.mp hx with rfl | hx
          · rcases hbad with hbad | hbad
            · exact absurd hbad hdir
            · rw [hm] at hbad; cases hbad
          · exact ⟨x, hx, hbad⟩
        rcases ih this with ⟨msg, hmsg⟩
        exact ⟨msg, by rw [hmsg]⟩
      · exact ⟨_, by rw [if_pos (by simp [hm])]⟩

/-- Claim C9: `NewFs` fails (and hence the store never becomes queryable — no
`Fs` value is produced) whenever the storage root contains a directory entry
or an entry whose name matches neither the bare 22-character identifier
pattern nor the `identifier.section` pattern; and it also fails, with the
root-not-found error, whenever loading succeeds but the configured root id is
not among the loaded records. -/
theorem claim_C9 :
    (∀ (root : ID) (entries : List DirEntry) (cwd : List (List Char)),
      (∃ e ∈ entries, e.isDir = true ∨ matchesFileInFsRoot e.name = false) →
      ∃ msg, newFs root entries cwd = .error msg) ∧
    (∀ (root : ID) (entries : List DirEntry) (cwd : List (List Char))
      (m : List (ID × Record)),
      loadRecords entries = .ok m → m.lookup root = none →
      newFs root entries cwd = .error "the root ID not found in fs") := by
  constructor
  · intro root entries cwd h
    rcases collectRecordFiles_error entries h with ⟨msg, hmsg⟩
    exact ⟨msg, by rw [newFs, loadRecords, hmsg]⟩
  · intro root entries cwd m h1 h2
    rw [newFs, h1]
    simp only [h2]

/-- Witness for claim C9: a storage root containing the ill-named file
`"garbage.txt!"` is rejected, a storage root containing a directory is
rejected, and an empty storage root is rejected because the configured root
id is not among the (zero) loaded records. -/
theorem claim_C9_witness :
    (∃ e ∈ [DirEntry.mk (String.toList "garbage.txt!") false none],
      e.isDir = true ∨ matchesFileInFsRoot e.name = false) ∧
    (∃ msg, newFs zeroID [DirEntry.mk (String.toList "garbage.txt!") false none] [] =
      .error msg) ∧
    (∃ msg, newFs zeroID [DirEntry.mk (String.toList "1111111111111111111111") true
      (some { children := [], isDir := true, name := "" })] [] = .error msg) ∧
    newFs zeroID [] [] = .error "the root ID not found in fs" :=
  ⟨by decide,
   claim_C9.1 zeroID [DirEntry.mk (String.toList "garbage.txt!") false none] []
     (by decide),
   claim_C9.1 zeroID [DirEntry.mk (String.toList "1111111111111111111111") true
     (some { children := [], isDir := true, name := "" })] [] (by decide),
   claim_C9.2 zeroID [] [] [] (by rfl) (by rfl)⟩

end Archiiv
